import Mathlib

/-!
Verification development for the Steam-sale mobile application's
data-fetching/caching/classification layer.

Source of truth: `src/app/(tabs)/index.tsx` (home tab: cache, rate limiter,
bounded-parallel executor, aggregation fetcher, price enrichment, filter
engine) and `src/unnamed/part_001` (search tab: standalone `classifyContent`).

Modelling conventions:
- JavaScript runtime values held by the response cache are modelled by the
  inductive `JSValue`; JavaScript truthiness is `truthy`.
- Machine timestamps (`Date.now()`) are natural numbers of milliseconds.
  The JS comparison `now - storedAt < TTL` is modelled with natural-number
  truncated subtraction, which agrees with the JS signed comparison for
  every pair of timestamps (a negative JS difference and a truncated-to-zero
  difference both satisfy `< TTL`).
- Decimal price strings from the aggregator (for example `"19.99"`) are
  modelled by the rational numbers they denote; `parseFloat` on such a
  field is then the identity.
- JavaScript `toLowerCase` is modelled by `jsLower`, an ASCII lowering
  (every keyword the code compares against is ASCII).
- Asynchronous operations are modelled by their outcomes; the completion
  order of concurrently running operations is an explicit adversarial
  schedule parameter.
-/

/-! ## JavaScript value model -/

/-- Universe of JavaScript runtime values stored in the response cache. -/
inductive JSValue where
  | vNull
  | vUndefined
  | vBool (b : Bool)
  | vNum (q : ℚ)
  | vStr (s : String)
  | vArr (elems : List JSValue)
  | vObj (fields : List (String × JSValue))

/-- JavaScript truthiness: `null`, `undefined`, `false`, `0` and the empty
string are falsy; every array and object (including empty ones) is truthy. -/
def truthy : JSValue → Bool
  | .vNull => false
  | .vUndefined => false
  | .vBool b => b
  | .vNum q => decide (q ≠ 0)
  | .vStr s => decide (s ≠ "")
  | .vArr _ => true
  | .vObj _ => true

/-- ASCII lowering of one character, as JS `toLowerCase` acts on ASCII. -/
def lowerChar (c : Char) : Char :=
  if 65 ≤ c.toNat ∧ c.toNat ≤ 90 then Char.ofNat (c.toNat + 32) else c

/-- Model of JS `title.toLowerCase()`, as a character list. -/
def jsLower (s : String) : List Char := s.toList.map lowerChar

/-- Model of JS `haystack.includes(sub)`: contiguous substring test. -/
def jsIncludes (hay : List Char) (sub : String) : Bool :=
  decide (sub.toList <:+: hay)

/-- JS string-option truthiness: `undefined`/`null` and `""` are falsy. -/
def strTruthy : Option String → Bool
  | none => false
  | some s => decide (s ≠ "")

/-- Model of JS `a || b` on two possibly-absent strings
(`deal.steamAppID || deal.gameID`). -/
def jsOr (a b : Option String) : Option String :=
  if strTruthy a then a else b

/-- Model of JS `a || b` where the fallback `b` is a present string
(`game.dealID || "steam_" + game.id`). -/
def jsOrStr (a : Option String) (b : String) : String :=
  match a with
  | some s => if s ≠ "" then s else b
  | none => b

/-- Model of a JS template interpolation of a possibly-absent string:
interpolating `undefined` yields the text `"undefined"`. -/
def jsTemplate : Option String → String
  | some s => s
  | none => "undefined"

/-! ## Response cache (`getCachedOrFetch`, index.tsx lines 94-178)

The module state `API_CACHE : Map<string, { data, timestamp }>` is modelled
as an association list; `CACHE_DURATION` is 10 minutes of milliseconds. -/

/-- One cache entry: `{ data: any; timestamp: number }`. -/
structure CacheEntry where
  data : JSValue
  timestamp : Nat

/-- The in-memory `API_CACHE` map, keyed by cache-key string. -/
abbrev Cache := List (String × CacheEntry)

/-- The empty cache (fresh module state). -/
def Cache.empty : Cache := []

/-- `CACHE_DURATION = 10 * 60 * 1000` milliseconds. -/
def CACHE_DURATION : Nat := 10 * 60 * 1000

/-- Model of `API_CACHE.get(key)`. -/
def cacheGet (c : Cache) (k : String) : Option CacheEntry :=
  match c with
  | [] => none
  | (k', e) :: rest => if k' = k then some e else cacheGet rest k

/-- Model of `API_CACHE.set(key, entry)`: replaces the entry at the key or
appends a fresh one. -/
def cacheSet (c : Cache) (k : String) (e : CacheEntry) : Cache :=
  match c with
  | [] => [(k, e)]
  | (k', e') :: rest =>
      if k' = k then (k, e) :: rest else (k', e') :: cacheSet rest k e

/-- The guard `cached && (now - cached.timestamp) < CACHE_DURATION` of
`getCachedOrFetch`. -/
def cacheValid (c : Cache) (k : String) (now : Nat) : Bool :=
  match cacheGet c k with
  | some e => decide (now - e.timestamp < CACHE_DURATION)
  | none => false

/-- Behaviour of one producer call (`fetchFn()`): either it throws, or it
returns a value after sleeping a given number of milliseconds internally. -/
inductive ProducerSpec where
  | throws
  | returns (v : JSValue) (sleptMs : Nat)

/-- Result of one `getCachedOrFetch` call: whether the producer's exception
propagated, the returned data (dummy `vNull` when it threw), the cache map
after the call, whether the producer was invoked, and the milliseconds the
producer slept. -/
structure CacheFetchOut where
  threw : Bool
  data : JSValue
  cache : Cache
  invoked : Bool
  sleptMs : Nat

/-- Model of `getCachedOrFetch(cacheKey, fetchFn)` (index.tsx 159-178):
return the cached payload when the entry exists and is younger than
`CACHE_DURATION`; otherwise invoke the producer and store its result under
the key with the current timestamp, but only when the result is truthy
(`if (data) API_CACHE.set(...)`). -/
def getCachedOrFetch (c : Cache) (now : Nat) (key : String)
    (producer : ProducerSpec) : CacheFetchOut :=
  match cacheGet c key with
  | some cached =>
      if now - cached.timestamp < CACHE_DURATION then
        { threw := false, data := cached.data, cache := c,
          invoked := false, sleptMs := 0 }
      else
        match producer with
        | .throws =>
            { threw := true, data := .vNull, cache := c,
              invoked := true, sleptMs := 0 }
        | .returns v s =>
            { threw := false, data := v,
              cache := if truthy v then cacheSet c key ⟨v, now⟩ else c,
              invoked := true, sleptMs := s }
  | none =>
      match producer with
      | .throws =>
          { threw := true, data := .vNull, cache := c,
            invoked := true, sleptMs := 0 }
      | .returns v s =>
          { threw := false, data := v,
            cache := if truthy v then cacheSet c key ⟨v, now⟩ else c,
            invoked := true, sleptMs := s }

/-! ## Storefront price lookup (`fetchSteamPrice`, index.tsx lines 515-559)

One network attempt inside the producer is described by an
`AttemptResult`; the call sequence of attempts is an oracle indexed by
attempt number. A thrown `JSON.parse` error behaves exactly like a thrown
`fetch` error (both land in the same `catch`), so both are `netThrow`. -/

/-- Outcome of one `rateLimitedFetch` round-trip as seen by the producer:
the fetch (or the later `JSON.parse`) throws; the response is non-2xx with
the given status code; the body is not JSON (does not start with a brace);
or a JSON body parses, yielding `price_overview || null` as a `JSValue`. -/
inductive AttemptResult where
  | netThrow
  | httpError (status : Nat)
  | nonJson
  | jsonBody (priceOverview : JSValue)

/-- The producer closure passed to `getCachedOrFetch` by `fetchSteamPrice`:
on a non-2xx response it sleeps 2000 ms extra when the status is 429 and
then returns `null`; on a non-JSON body it returns `null`; on a JSON body
it returns `price_overview || null`. -/
def attemptProducer : AttemptResult → ProducerSpec
  | .netThrow => .throws
  | .httpError status =>
      .returns .vNull (if status = 429 then 2000 else 0)
  | .nonJson => .returns .vNull 0
  | .jsonBody po => .returns (if truthy po then po else .vNull) 0

/-- Observable result of a whole `fetchSteamPrice` call: the returned value
(`null` on failure), the cache map afterwards, the total milliseconds slept
(429 penalty plus 1000 ms per retry backoff), and how many times the
producer ran. -/
structure PriceFetchOut where
  data : JSValue
  cache : Cache
  sleptMs : Nat
  producerRuns : Nat

/-- Model of `fetchSteamPrice(steamAppID, retries = 2)` (index.tsx 515-559):
route the producer through `getCachedOrFetch` under key
`steam_price_<appID>`; when the producer throws and retries remain, sleep
1000 ms and recurse with `retries - 1`; when none remain, return `null`.
A non-2xx status or non-JSON body makes the producer return `null`, which
is falsy, hence never cached and never retried. -/
def fetchSteamPrice (oracle : Nat → AttemptResult) (steamAppID : String)
    (c : Cache) (now : Nat) (attempt : Nat) (retries : Nat) : PriceFetchOut :=
  let out := getCachedOrFetch c now ("steam_price_" ++ steamAppID)
      (attemptProducer (oracle attempt))
  if out.threw then
    match retries with
    | r + 1 =>
        let rest := fetchSteamPrice oracle steamAppID c now (attempt + 1) r
        { data := rest.data, cache := rest.cache,
          sleptMs := out.sleptMs + 1000 + rest.sleptMs,
          producerRuns := rest.producerRuns + 1 }
    | 0 =>
        { data := .vNull, cache := out.cache,
          sleptMs := out.sleptMs, producerRuns := 1 }
  else
    { data := out.data, cache := out.cache,
      sleptMs := out.sleptMs, producerRuns := if out.invoked then 1 else 0 }

/-! ## Content classifier

Two implementations exist in the repository: the standalone
`classifyContent` in `src/unnamed/part_001` (lines 128-156) and the inline
classification inside `fetchAllSteamSaleGames` in index.tsx (lines
304-337). The inline one adds an extra Bundle heuristic
(`title.includes('edition') && title.includes('all')`) and three extra DLC
keywords (`downloadable content`, `chapter`, `episode`). -/

/-- Result record `{ contentType, isDLC, isBundle }` of the classifier. -/
structure Classification where
  contentType : String
  isDLC : Bool
  isBundle : Bool
deriving DecidableEq

/-- Model of `classifyContent(title)` from `src/unnamed/part_001`
(lines 128-156). -/
def classifyContent (title : String) : Classification :=
  let titleLower := jsLower title
  if jsIncludes titleLower "bundle" ||
     jsIncludes titleLower "complete edition" ||
     jsIncludes titleLower "definitive edition" ||
     jsIncludes titleLower "goty" ||
     jsIncludes titleLower "game of the year" ||
     jsIncludes titleLower "ultimate edition" ||
     jsIncludes titleLower "deluxe edition" ||
     jsIncludes titleLower "gold edition" then
    { contentType := "Bundle", isDLC := false, isBundle := true }
  else if jsIncludes titleLower "dlc" ||
          jsIncludes titleLower "expansion" ||
          jsIncludes titleLower "season pass" ||
          jsIncludes titleLower "add-on" ||
          jsIncludes titleLower "pack" ||
          jsIncludes titleLower " - " then
    { contentType := "DLC", isDLC := true, isBundle := false }
  else
    { contentType := "Game", isDLC := false, isBundle := false }

/-- Model of the inline classification of `fetchAllSteamSaleGames`
(index.tsx lines 304-337), applied to `deal.title`. -/
def classifyContentHome (title : String) : Classification :=
  let titleLower := jsLower title
  if jsIncludes titleLower "bundle" ||
     jsIncludes titleLower "complete edition" ||
     jsIncludes titleLower "definitive edition" ||
     jsIncludes titleLower "goty" ||
     jsIncludes titleLower "game of the year" ||
     jsIncludes titleLower "ultimate edition" ||
     jsIncludes titleLower "deluxe edition" ||
     jsIncludes titleLower "gold edition" ||
     (jsIncludes titleLower "edition" && jsIncludes titleLower "all") then
    { contentType := "Bundle", isDLC := false, isBundle := true }
  else if jsIncludes titleLower "dlc" ||
          jsIncludes titleLower "expansion" ||
          jsIncludes titleLower "season pass" ||
          jsIncludes titleLower "add-on" ||
          jsIncludes titleLower "downloadable content" ||
          jsIncludes titleLower "pack" ||
          jsIncludes titleLower " - " ||
          jsIncludes titleLower "chapter" ||
          jsIncludes titleLower "episode" then
    { contentType := "DLC", isDLC := true, isBundle := false }
  else
    { contentType := "Game", isDLC := false, isBundle := false }

/-- Spec-side predicate: the title case-insensitively contains at least one
of the specification's eight Bundle keywords. -/
def bundleKeywordHit (title : String) : Bool :=
  let t := jsLower title
  jsIncludes t "bundle" ||
  jsIncludes t "complete edition" ||
  jsIncludes t "definitive edition" ||
  jsIncludes t "goty" ||
  jsIncludes t "game of the year" ||
  jsIncludes t "ultimate edition" ||
  jsIncludes t "deluxe edition" ||
  jsIncludes t "gold edition"

/-- Spec-side predicate: the title case-insensitively contains at least one
of the specification's nine DLC keywords. -/
def dlcKeywordHit (title : String) : Bool :=
  let t := jsLower title
  jsIncludes t "dlc" ||
  jsIncludes t "expansion" ||
  jsIncludes t "season pass" ||
  jsIncludes t "add-on" ||
  jsIncludes t "downloadable content" ||
  jsIncludes t "pack" ||
  jsIncludes t "chapter" ||
  jsIncludes t "episode" ||
  jsIncludes t " - "

/-! ## Bounded-parallel executor (`parallelFetchWithLimit`, index.tsx 119-156)

Each loop iteration starts the wrapped task for item `i`; the wrapper runs
`fetchFn(item)` and writes `results[i] = result` (or `results[i] = null`
when it threw) when it completes. Once `maxConcurrent` tasks are in flight
the loop waits for some in-flight task to complete; which one completes is
decided by the network, modelled as an adversarial schedule that picks an
in-flight task at every wait point. After the loop, all still-running
tasks are awaited (again in adversarial order). A completed task is the
pair of its item index and the value it writes into `results`. -/

/-- A started task: the item index together with the value its wrapper will
write into `results[i]` on completion (`some r` normally, `none` when
`fetchFn` threw and the `catch` wrote `null`). -/
abbrev ExecTask (β : Type) := Nat × Option β

/-- The adversary completes one in-flight task: the schedule value picks
the position (taken modulo the number of in-flight tasks). Returns the
completed task and the remaining in-flight list. -/
def pickCompleted {β : Type} (sched : Nat → Nat) (step : Nat)
    (inFlight : List (ExecTask β)) (h : inFlight ≠ []) :
    ExecTask β × List (ExecTask β) :=
  let j : Fin inFlight.length :=
    ⟨sched step % inFlight.length,
     Nat.mod_lt _ (List.length_pos.mpr h)⟩
  (inFlight.get j, inFlight.eraseIdx j.val)

/-- Final `await Promise.all(executing)`: the remaining in-flight tasks
complete one by one in adversarial order. `fuel` is the in-flight count. -/
def drainAll {β : Type} (sched : Nat → Nat) :
    Nat → Nat → List (ExecTask β) → List (ExecTask β) → List (ExecTask β)
  | 0, _, inFlight, completed => completed ++ inFlight
  | _ + 1, _, [], completed => completed
  | fuel + 1, step, x :: rest, completed =>
      let pc := pickCompleted sched step (x :: rest) (List.cons_ne_nil x rest)
      drainAll sched fuel (step + 1) pc.2 (completed ++ [pc.1])

/-- The main loop of `parallelFetchWithLimit`: start each pending task in
input order; whenever `executing.length >= maxConcurrent`, wait for one
in-flight task (adversarially chosen) to complete. -/
def execLoop {β : Type} (sched : Nat → Nat) (maxConcurrent : Nat) :
    List (ExecTask β) → Nat → List (ExecTask β) → List (ExecTask β) →
    List (ExecTask β)
  | [], step, inFlight, completed =>
      drainAll sched inFlight.length step inFlight completed
  | t :: pending, step, inFlight, completed =>
      let started := inFlight ++ [t]
      if maxConcurrent ≤ started.length then
        let pc := pickCompleted sched step started (by simp [started])
        execLoop sched maxConcurrent pending (step + 1) pc.2
          (completed ++ [pc.1])
      else
        execLoop sched maxConcurrent pending (step + 1) started completed

/-- The value the wrapper writes for one item: `fetchFn`'s result, or
`null` when it threw (the `catch` branch). -/
def taskOutcome {α β ε : Type} (fetchFn : α → Except ε β) (a : α) :
    Option β :=
  (fetchFn a).toOption

/-- Model of `parallelFetchWithLimit(items, fetchFn, maxConcurrent)`
(index.tsx 119-156) under a completion schedule `sched`: run all tasks
with bounded concurrency, then read `results[0..items.length)` — entry `i`
holds the value written by task `i`. -/
def parallelFetchWithLimit {α β ε : Type} (items : List α)
    (fetchFn : α → Except ε β) (maxConcurrent : Nat) (sched : Nat → Nat) :
    List (Option β) :=
  let tasks : List (ExecTask β) := (items.map (taskOutcome fetchFn)).enum
  let completed := execLoop sched maxConcurrent tasks 0 [] []
  (List.range items.length).map fun i =>
    ((completed.find? (fun p => p.1 == i)).map Prod.snd).getD none

/-! ## Deal aggregation (`fetchAllSteamSaleGames`, index.tsx 283-385)

An aggregator row carries the CheapShark fields this layer consumes.
Decimal price/savings strings are modelled by the rationals they denote;
`steamAppID`, `gameID` and `dealID` may be absent (`Option`). -/

/-- One row of the flattened aggregator response. -/
structure AggRow where
  dealID : Option String
  title : String
  normalPrice : ℚ
  salePrice : ℚ
  savings : ℚ
  thumb : String
  steamAppID : Option String
  gameID : Option String
deriving DecidableEq

/-- The intermediate record built by the `map` inside
`fetchAllSteamSaleGames`: external id `steamAppID || gameID`, aggregator
price fields, and the inline classification of the title. -/
structure MappedGame where
  id : Option String
  title : String
  dealID : Option String
  price : ℚ
  normalPrice : ℚ
  savings : ℚ
  thumb : String
  isDLC : Bool
  isBundle : Bool
  type : String
deriving DecidableEq

/-- The body of the `map` in `fetchAllSteamSaleGames` (index.tsx 304-351):
classify the title and carry the aggregator fields over. -/
def mapDeal (deal : AggRow) : MappedGame :=
  let c := classifyContentHome deal.title
  { id := jsOr deal.steamAppID deal.gameID,
    title := deal.title,
    dealID := deal.dealID,
    price := deal.salePrice,
    normalPrice := deal.normalPrice,
    savings := deal.savings,
    thumb := deal.thumb,
    isDLC := c.isDLC,
    isBundle := c.isBundle,
    type := c.contentType }

/-- The `allGames` list of `fetchAllSteamSaleGames`: flattened rows with
`savings >= 5`, mapped through the classifier (index.tsx 302-351). -/
def allGamesOf (allDeals : List AggRow) : List MappedGame :=
  (allDeals.filter (fun deal => decide (5 ≤ deal.savings))).map mapDeal

/-- The `uniqueGames` filter of `fetchAllSteamSaleGames` (index.tsx
371-376): keep a game at position `index` iff its id is truthy, its
savings is at least 5, and `index` is the first position holding that id
(`index === self.findIndex(g => g.id === game.id)`). -/
def uniqueGamesOf (allGames : List MappedGame) : List MappedGame :=
  (allGames.enum.filter fun p =>
    strTruthy p.2.id && decide (5 ≤ p.2.savings) &&
      (p.1 == allGames.findIdx (fun g => g.id == p.2.id))).map Prod.snd

/-- Model of `fetchAllSteamSaleGames` given the flattened aggregator rows:
discount filter, classification map, then deduplication (index.tsx
283-385). The returned list is also what is stored in `allSteamGames`. -/
def fetchAllSteamSaleGames (allDeals : List AggRow) : List MappedGame :=
  uniqueGamesOf (allGamesOf allDeals)

/-! ## Price enrichment (`fetchSteamSaleGames`, index.tsx 387-492) -/

/-- A Steam regional price block (`price_overview`): minor currency units
and a discount percentage. -/
structure SteamPriceVN where
  currency : String
  initial : ℚ
  final : ℚ
  discount_percent : ℚ
  initial_formatted : String
  final_formatted : String
deriving DecidableEq

/-- A genre entry `{ id, description }`. -/
structure Genre where
  id : String
  description : String
deriving DecidableEq

/-- The per-listing record of the working set (interface `GameDeal`).
`genres` is `none` until the genre backfill populates it. -/
structure GameDeal where
  dealID : String
  title : String
  normalPrice : ℚ
  salePrice : ℚ
  savings : ℚ
  thumb : String
  storeID : String
  dealRating : String
  gameID : Option String
  steamAppID : Option String
  isDLC : Bool
  isBundle : Bool
  type : String
  steamPriceVN : Option SteamPriceVN
  genres : Option (List Genre)
deriving DecidableEq

/-- The enrichment step for one candidate of a page (index.tsx 412-473):
with a Steam price the price fields are recomputed from the minor-unit
values (`initial / 100`, `final / 100`, `discount_percent`) and the block
is attached; without one (lookup returned `null`, or the lookup threw and
the `catch` pushed the identical fallback record) the aggregator-supplied
fields are carried over unchanged and no block is attached. -/
def enrichGame (game : MappedGame) (steamPrice : Option SteamPriceVN) :
    GameDeal :=
  match steamPrice with
  | none =>
      { dealID := jsOrStr game.dealID ("steam_" ++ jsTemplate game.id),
        title := game.title,
        normalPrice := game.normalPrice,
        salePrice := game.price,
        savings := game.savings,
        thumb := game.thumb,
        storeID := "1",
        dealRating := "0",
        gameID := game.id,
        steamAppID := game.id,
        isDLC := game.isDLC,
        isBundle := game.isBundle,
        type := game.type,
        steamPriceVN := none,
        genres := none }
  | some p =>
      { dealID := "steam_" ++ jsTemplate game.id,
        title := game.title,
        normalPrice := p.initial / 100,
        salePrice := p.final / 100,
        savings := p.discount_percent,
        thumb := game.thumb,
        storeID := "1",
        dealRating := "0",
        gameID := game.id,
        steamAppID := game.id,
        isDLC := game.isDLC,
        isBundle := game.isBundle,
        type := game.type,
        steamPriceVN := some p,
        genres := none }

/-- The post-enrichment discount filter (index.tsx 476-483): regional
`discount_percent >= 5` when a price block is present, otherwise the
aggregator `savings >= 5`. -/
def gameOnSale (game : GameDeal) : Bool :=
  match game.steamPriceVN with
  | some p => decide (5 ≤ p.discount_percent)
  | none => decide (5 ≤ game.savings)

/-- Model of `fetchSteamSaleGames(pageNum)` (index.tsx 387-492) over the
cached pool `saleGames` (= `allSteamGames`): slice ten candidates
(`slice(pageNum * 10, pageNum * 10 + 10)`), enrich each with the outcome
of its storefront price lookup (`priceLookup`, `none` on any failure),
and keep only the enriched records passing `gameOnSale`. -/
def fetchSteamSaleGames (saleGames : List MappedGame) (pageNum : Nat)
    (priceLookup : MappedGame → Option SteamPriceVN) : List GameDeal :=
  let pageGames := (saleGames.drop (pageNum * 10)).take 10
  if pageGames.isEmpty then []
  else
    (pageGames.map (fun g => enrichGame g (priceLookup g))).filter gameOnSale

/-! ## Filter engine (`applyFilterToDeals`, index.tsx 768-841) -/

/-- The scrutinee `deal.steamPriceVN ? deal.steamPriceVN.final : 0` of the
price-bucket switch: the regional final minor-unit price, or 0 when no
regional price block is present. -/
def regionalFinalOrZero (deal : GameDeal) : ℚ :=
  match deal.steamPriceVN with
  | some p => p.final
  | none => 0

/-- The switch of the price filter (index.tsx 773-786): half-open buckets
on the regional final minor-unit price; unknown filter keys fall through
to `default: return true`. -/
def priceBucketKeep (priceFilter : String) (deal : GameDeal) : Bool :=
  let priceInVND := regionalFinalOrZero deal
  if priceFilter = "under100k" then decide (priceInVND < 10000000)
  else if priceFilter = "100k-500k" then
    decide (10000000 ≤ priceInVND) && decide (priceInVND < 50000000)
  else if priceFilter = "500k-1m" then
    decide (50000000 ≤ priceInVND) && decide (priceInVND < 100000000)
  else true

/-- The `genreMap[genreFilter] || [genreFilter]` keyword lookup of the
genre filter (index.tsx 792-805). -/
def genreKeywords (genreFilter : String) : List String :=
  if genreFilter = "action" then ["Hành động", "Action"]
  else if genreFilter = "adventure" then ["Phiêu lưu", "Adventure"]
  else if genreFilter = "rpg" then ["Nhập vai", "RPG", "Role-Playing"]
  else if genreFilter = "strategy" then ["Chiến thuật", "Strategy"]
  else if genreFilter = "simulation" then ["Mô phỏng", "Simulation"]
  else if genreFilter = "sports" then ["Thể thao", "Sports"]
  else if genreFilter = "racing" then ["Đua xe", "Racing"]
  else if genreFilter = "indie" then ["Indie"]
  else if genreFilter = "early_access" then ["Truy cập sớm", "Early Access"]
  else if genreFilter = "casual" then ["Giải trí", "Casual"]
  else [genreFilter]

/-- The genre predicate (index.tsx 819-835): a deal with no genre data
never matches; otherwise some genre description must contain some keyword,
case-insensitively. -/
def genreKeep (genreFilter : String) (deal : GameDeal) : Bool :=
  match deal.genres with
  | none => false
  | some gs =>
      if gs.isEmpty then false
      else gs.any fun genre =>
        (genreKeywords genreFilter).any fun keyword =>
          jsIncludes (jsLower genre.description) (String.mk (jsLower keyword))

/-- Model of `applyFilterToDeals(dealsToFilter, priceFilter, genreFilter)`
(index.tsx 768-841): apply the price-bucket filter unless the price filter
is the sentinel `all`, then the genre filter unless the genre filter is
`all`; the two compose by logical AND. -/
def applyFilterToDeals (dealsToFilter : List GameDeal)
    (priceFilter : String) (genreFilter : String) : List GameDeal :=
  let filtered := dealsToFilter
  let filtered :=
    if priceFilter ≠ "all" then filtered.filter (priceBucketKeep priceFilter)
    else filtered
  let filtered :=
    if genreFilter ≠ "all" then filtered.filter (genreKeep genreFilter)
    else filtered
  filtered

/-! ## Helper lemmas about the cache -/

/-- Reading a key immediately after setting it yields the new entry. -/
theorem cacheGet_cacheSet_self (c : Cache) (k : String) (e : CacheEntry) :
    cacheGet (cacheSet c k e) k = some e := by
  induction c with
  | nil => simp [cacheSet, cacheGet]
  | cons p rest ih =>
      obtain ⟨k', e'⟩ := p
      by_cases h : k' = k
      · simp [cacheSet, h, cacheGet]
      · simp [cacheSet, h, cacheGet, ih]

/-- On a cache miss (no entry, or a stale one) with a returning producer,
`getCachedOrFetch` invokes the producer, returns its value, and stores it
iff it is truthy. -/
theorem getCachedOrFetch_miss (c : Cache) (now : Nat) (k : String)
    (v : JSValue) (s : Nat) (hmiss : cacheValid c k now = false) :
    getCachedOrFetch c now k (.returns v s) =
      { threw := false, data := v,
        cache := if truthy v then cacheSet c k ⟨v, now⟩ else c,
        invoked := true, sleptMs := s } := by
  cases hget : cacheGet c k with
  | none => simp [getCachedOrFetch, hget]
  | some e =>
      have hstale : ¬ (now - e.timestamp < CACHE_DURATION) := by
        simpa [cacheValid, hget] using hmiss
      simp [getCachedOrFetch, hget, hstale]

/-- On a cache miss with a throwing producer, the exception propagates and
the cache is unchanged. -/
theorem getCachedOrFetch_throw (c : Cache) (now : Nat) (k : String)
    (hmiss : cacheValid c k now = false) :
    getCachedOrFetch c now k .throws =
      { threw := true, data := .vNull, cache := c,
        invoked := true, sleptMs := 0 } := by
  cases hget : cacheGet c k with
  | none => simp [getCachedOrFetch, hget]
  | some e =>
      have hstale : ¬ (now - e.timestamp < CACHE_DURATION) := by
        simpa [cacheValid, hget] using hmiss
      simp [getCachedOrFetch, hget, hstale]

/-- On a fresh cache entry, `getCachedOrFetch` returns the cached payload
without invoking the producer. -/
theorem getCachedOrFetch_hit (c : Cache) (now : Nat) (k : String)
    (p : ProducerSpec) (e : CacheEntry) (hget : cacheGet c k = some e)
    (hfresh : now - e.timestamp < CACHE_DURATION) :
    getCachedOrFetch c now k p =
      { threw := false, data := e.data, cache := c,
        invoked := false, sleptMs := 0 } := by
  simp [getCachedOrFetch, hget, hfresh]

/-! ## Claim C1 -/

/-- C1 counterexample: the claim quantifies over every producer, but a
producer returning `null` (a falsy value) is never cached, so two
`getCachedOrFetch` calls with key `"k"` only 1 ms apart — far inside the
10-minute TTL — both invoke the producer, contradicting "at most once". -/
theorem getCachedOrFetch_null_producer_invoked_twice :
    (getCachedOrFetch Cache.empty 0 "k" (.returns .vNull 0)).invoked = true ∧
    (getCachedOrFetch (getCachedOrFetch Cache.empty 0 "k"
        (.returns .vNull 0)).cache 1 "k" (.returns .vNull 0)).invoked = true ∧
    1 - 0 < CACHE_DURATION := by
  refine ⟨rfl, rfl, by decide⟩

/-- C1 (amended): for a producer whose result is truthy (non-null and
non-empty-string), starting from a state with no valid entry for the key:
the first call invokes the producer and stores its payload; a second call
within the 10-minute TTL of the stored entry does not invoke the producer
and returns the identical payload (so the producer ran at most once); a
call made after the TTL has elapsed since the entry was stored invokes the
producer again. -/
theorem getCachedOrFetch_ttl (c : Cache) (k : String) (t1 t2 t2' : Nat)
    (v1 v2 v2' : JSValue) (s1 s2 s2' : Nat)
    (htr : truthy v1 = true) (hmiss : cacheValid c k t1 = false)
    (hin : t2 - t1 < CACHE_DURATION) (hout : CACHE_DURATION ≤ t2' - t1) :
    (getCachedOrFetch c t1 k (.returns v1 s1)).invoked = true ∧
    (getCachedOrFetch c t1 k (.returns v1 s1)).data = v1 ∧
    (getCachedOrFetch (getCachedOrFetch c t1 k (.returns v1 s1)).cache
        t2 k (.returns v2 s2)).invoked = false ∧
    (getCachedOrFetch (getCachedOrFetch c t1 k (.returns v1 s1)).cache
        t2 k (.returns v2 s2)).data = v1 ∧
    (getCachedOrFetch (getCachedOrFetch c t1 k (.returns v1 s1)).cache
        t2' k (.returns v2' s2')).invoked = true := by
  have h1 := getCachedOrFetch_miss c t1 k v1 s1 hmiss
  rw [h1]
  simp only [htr, if_pos]
  have hset := cacheGet_cacheSet_self c k ⟨v1, t1⟩
  have h2 := getCachedOrFetch_hit (cacheSet c k ⟨v1, t1⟩) t2 k
    (.returns v2 s2) ⟨v1, t1⟩ hset hin
  have hmiss' : cacheValid (cacheSet c k ⟨v1, t1⟩) k t2' = false := by
    simp [cacheValid, hset, Nat.not_lt.mpr hout]
  have h3 := getCachedOrFetch_miss (cacheSet c k ⟨v1, t1⟩) t2' k v2' s2' hmiss'
  rw [h2, h3]
  simp

/-- C1 witness: the amended theorem applied at a concrete key, payload and
pair of call times. -/
theorem getCachedOrFetch_ttl_witness :
    truthy (.vStr "payload") = true ∧
    cacheValid Cache.empty "k" 0 = false ∧
    1 - 0 < CACHE_DURATION ∧
    CACHE_DURATION ≤ CACHE_DURATION - 0 ∧
    ((getCachedOrFetch Cache.empty 0 "k" (.returns (.vStr "payload") 0)).invoked = true ∧
     (getCachedOrFetch Cache.empty 0 "k" (.returns (.vStr "payload") 0)).data = .vStr "payload" ∧
     (getCachedOrFetch (getCachedOrFetch Cache.empty 0 "k" (.returns (.vStr "payload") 0)).cache
         1 "k" (.returns (.vStr "other") 0)).invoked = false ∧
     (getCachedOrFetch (getCachedOrFetch Cache.empty 0 "k" (.returns (.vStr "payload") 0)).cache
         1 "k" (.returns (.vStr "other") 0)).data = .vStr "payload" ∧
     (getCachedOrFetch (getCachedOrFetch Cache.empty 0 "k" (.returns (.vStr "payload") 0)).cache
         CACHE_DURATION "k" (.returns (.vStr "other") 0)).invoked = true) :=
  ⟨by decide, by decide, by decide, by decide,
   getCachedOrFetch_ttl Cache.empty "k" 0 1 CACHE_DURATION
     (.vStr "payload") (.vStr "other") (.vStr "other") 0 0 0
     (by decide) (by decide) (by decide) (by decide)⟩

/-! ## Claim C7 -/

/-- C7 counterexample: a producer that yields an empty array — the
empty-genre-list result the genre producer returns on failed responses —
produces an empty result that IS written to the cache (JS `if (data)`
tests truthiness and an empty array is truthy), and a second call 1 ms
later finds the entry and does not invoke the producer again. -/
theorem getCachedOrFetch_empty_array_is_cached :
    (cacheGet (getCachedOrFetch Cache.empty 0 "k"
        (.returns (.vArr []) 0)).cache "k") = some ⟨.vArr [], 0⟩ ∧
    (getCachedOrFetch (getCachedOrFetch Cache.empty 0 "k"
        (.returns (.vArr []) 0)).cache 1 "k"
        (.returns (.vArr []) 0)).invoked = false :=
  ⟨rfl, rfl⟩

/-- C7 (amended): when `getCachedOrFetch` finds no valid cache entry, it
invokes the producer and stores the produced result if and only if the
result is truthy under JavaScript semantics: `null` and the empty string
are falsy and are never written, but an empty array is truthy and is
written. Consequently, after a falsy result on a previously unseen key, a
later call with the same key invokes the producer again. -/
theorem getCachedOrFetch_stores_iff_truthy (c : Cache) (k : String)
    (now : Nat) (v : JSValue) (s : Nat)
    (hmiss : cacheValid c k now = false) :
    (getCachedOrFetch c now k (.returns v s)).invoked = true ∧
    (getCachedOrFetch c now k (.returns v s)).cache =
      (if truthy v then cacheSet c k ⟨v, now⟩ else c) ∧
    truthy .vNull = false ∧
    truthy (.vStr "") = false ∧
    truthy (.vArr []) = true ∧
    (truthy v = false → cacheGet c k = none → ∀ now2 v2 s2,
      (getCachedOrFetch (getCachedOrFetch c now k (.returns v s)).cache
          now2 k (.returns v2 s2)).invoked = true) := by
  have h1 := getCachedOrFetch_miss c now k v s hmiss
  refine ⟨by rw [h1], by rw [h1], by decide, by decide, by decide, ?_⟩
  intro hf hget now2 v2 s2
  rw [h1]
  simp only [hf, Bool.false_eq_true, if_false]
  have hmiss2 : cacheValid c k now2 = false := by simp [cacheValid, hget]
  rw [getCachedOrFetch_miss c now2 k v2 s2 hmiss2]

/-- C7 witness: the amended theorem applied at the empty cache, key `"k"`
and a `null`-returning producer. -/
theorem getCachedOrFetch_stores_iff_truthy_witness :
    cacheValid Cache.empty "k" 0 = false ∧
    ((getCachedOrFetch Cache.empty 0 "k" (.returns .vNull 0)).invoked = true ∧
     (getCachedOrFetch Cache.empty 0 "k" (.returns .vNull 0)).cache =
       (if truthy .vNull then cacheSet Cache.empty "k" ⟨.vNull, 0⟩
        else Cache.empty) ∧
     truthy .vNull = false ∧
     truthy (.vStr "") = false ∧
     truthy (.vArr []) = true ∧
     (truthy JSValue.vNull = false → cacheGet Cache.empty "k" = none →
       ∀ now2 v2 s2,
         (getCachedOrFetch (getCachedOrFetch Cache.empty 0 "k"
             (.returns .vNull 0)).cache now2 "k"
             (.returns v2 s2)).invoked = true)) :=
  ⟨by decide,
   getCachedOrFetch_stores_iff_truthy Cache.empty "k" 0 .vNull 0 (by decide)⟩

/-! ## Claim C8 -/

/-- C8 counterexample: a price lookup whose first attempt receives HTTP
429 on a cold cache sleeps the extra 2000 ms but then returns `null`
directly — exactly one producer run, no retry — even though a retry
budget of 2 was available. Inside the producer a 429 merely returns
`null`, which only the thrown-error `catch` path would retry. -/
theorem fetchSteamPrice_429_returns_null_without_retry :
    fetchSteamPrice (fun _ => .httpError 429) "10" Cache.empty 0 0 2 =
      { data := .vNull, cache := Cache.empty,
        sleptMs := 2000, producerRuns := 1 } := rfl

/-- C8 (amended): on a cold cache key, a throttling (HTTP 429) response
makes `fetchSteamPrice` sleep an additional fixed 2000 ms and then return
`null` without consuming any retry (one producer run, regardless of the
remaining budget); the retry budget — default 2, with a 1000 ms backoff
before each retry — applies only to thrown errors (network failure or a
throwing `JSON.parse`), after which the data is treated as absent and
`null` is returned. -/
theorem fetchSteamPrice_throttle_and_retry (oracle : Nat → AttemptResult)
    (appID : String) (c : Cache) (now attempt retries : Nat)
    (hmiss : cacheValid c ("steam_price_" ++ appID) now = false) :
    (oracle attempt = .httpError 429 →
      fetchSteamPrice oracle appID c now attempt retries =
        { data := .vNull, cache := c, sleptMs := 2000, producerRuns := 1 }) ∧
    ((∀ k, oracle k = .netThrow) →
      fetchSteamPrice oracle appID c now attempt retries =
        { data := .vNull, cache := c, sleptMs := 1000 * retries,
          producerRuns := retries + 1 }) := by
  constructor
  · intro h429
    have hmain := getCachedOrFetch_miss c now ("steam_price_" ++ appID)
      .vNull 2000 hmiss
    rw [fetchSteamPrice.eq_def, h429]
    simp [attemptProducer, hmain, truthy]
  · intro hthrow
    induction retries generalizing attempt with
    | zero =>
        rw [fetchSteamPrice.eq_def, hthrow attempt]
        simp [attemptProducer,
          getCachedOrFetch_throw c now ("steam_price_" ++ appID) hmiss]
    | succ r ih =>
        rw [fetchSteamPrice.eq_def, hthrow attempt]
        simp [attemptProducer,
          getCachedOrFetch_throw c now ("steam_price_" ++ appID) hmiss,
          ih (attempt + 1), PriceFetchOut.mk.injEq]
        all_goals omega

/-- C8 witness: the amended theorem applied to an oracle whose attempts
all throw, with the default retry budget of 2: three producer runs and
2000 ms of backoff, then `null`. -/
theorem fetchSteamPrice_throttle_and_retry_witness :
    cacheValid Cache.empty ("steam_price_" ++ "570") 0 = false ∧
    fetchSteamPrice (fun _ => .netThrow) "570" Cache.empty 0 0 2 =
      { data := .vNull, cache := Cache.empty,
        sleptMs := 2000, producerRuns := 3 } :=
  ⟨by decide,
   (fetchSteamPrice_throttle_and_retry (fun _ => .netThrow) "570"
      Cache.empty 0 0 2 (by decide)).2 (fun _ => rfl)⟩

/-! ## Claim C3 -/

/-- C3: any title that case-insensitively contains one of the eight Bundle
keywords is classified as Bundle (isBundle true, isDLC false) by both the
standalone classifier and the home-screen inline classifier, regardless of
any DLC keyword also present — the Bundle check precedes the DLC check. -/
theorem classify_bundle_precedes_dlc (title : String)
    (h : bundleKeywordHit title = true) :
    classifyContent title =
      { contentType := "Bundle", isDLC := false, isBundle := true } ∧
    classifyContentHome title =
      { contentType := "Bundle", isDLC := false, isBundle := true } := by
  simp only [bundleKeywordHit] at h
  constructor
  · simp [classifyContent, h]
  · simp [classifyContentHome, h]

/-- C3 witness: the specification's own example, a title containing both a
Bundle keyword and the DLC marker hyphen. -/
theorem classify_bundle_precedes_dlc_witness :
    bundleKeywordHit "Game - Definitive Edition" = true ∧
    (classifyContent "Game - Definitive Edition" =
       { contentType := "Bundle", isDLC := false, isBundle := true } ∧
     classifyContentHome "Game - Definitive Edition" =
       { contentType := "Bundle", isDLC := false, isBundle := true }) :=
  ⟨by decide, classify_bundle_precedes_dlc _ (by decide)⟩

/-! ## Claim C4 -/

/-- C4 counterexample: the title `"all edition"` contains none of the
specification's eight Bundle keywords and none of its nine DLC keywords,
yet the home-screen classifier returns Bundle, not Game, through its extra
heuristic `title.includes('edition') && title.includes('all')`. -/
theorem classifyContentHome_all_edition_is_bundle :
    bundleKeywordHit "all edition" = false ∧
    dlcKeywordHit "all edition" = false ∧
    classifyContentHome "all edition" =
      { contentType := "Bundle", isDLC := false, isBundle := true } := by
  refine ⟨by decide, by decide, by decide⟩

/-- C4 (amended): any title that case-insensitively contains none of the
Bundle keywords, none of the DLC keywords, and not both of the substrings
`edition` and `all` (the home screen's additional Bundle heuristic) is
classified as Game with isDLC and isBundle false by both classifiers. -/
theorem classify_default_game (title : String)
    (hb : bundleKeywordHit title = false)
    (hd : dlcKeywordHit title = false)
    (hx : (jsIncludes (jsLower title) "edition" &&
           jsIncludes (jsLower title) "all") = false) :
    classifyContent title =
      { contentType := "Game", isDLC := false, isBundle := false } ∧
    classifyContentHome title =
      { contentType := "Game", isDLC := false, isBundle := false } := by
  simp only [bundleKeywordHit] at hb
  simp only [dlcKeywordHit] at hd
  have hds := hd
  simp only [Bool.or_eq_false_iff] at hds
  obtain ⟨⟨⟨⟨⟨⟨⟨⟨hd1, hd2⟩, hd3⟩, hd4⟩, hd5⟩, hd6⟩, hd7⟩, hd8⟩, hd9⟩ := hds
  constructor
  · simp [classifyContent, hb, hd1, hd2, hd3, hd4, hd6, hd9]
  · simp [classifyContentHome, hb, hx, hd1, hd2, hd3, hd4, hd5, hd6, hd7,
      hd8, hd9]

/-- C4 witness: the specification's own example `"Half-Life 2"` is
classified as Game by both classifiers. -/
theorem classify_default_game_witness :
    bundleKeywordHit "Half-Life 2" = false ∧
    dlcKeywordHit "Half-Life 2" = false ∧
    (jsIncludes (jsLower "Half-Life 2") "edition" &&
     jsIncludes (jsLower "Half-Life 2") "all") = false ∧
    (classifyContent "Half-Life 2" =
       { contentType := "Game", isDLC := false, isBundle := false } ∧
     classifyContentHome "Half-Life 2" =
       { contentType := "Game", isDLC := false, isBundle := false }) :=
  ⟨by decide, by decide, by decide,
   classify_default_game _ (by decide) (by decide) (by decide)⟩

/-! ## Claim C5 -/

/-- C5: for a candidate in the requested page slice whose price lookup
fails, the enriched record keeps the aggregator's normalPrice, salePrice
and savings unchanged with no regional price block, and it is in the
page's final result iff the aggregator savings is at least 5; a candidate
whose lookup succeeds gets salePrice, normalPrice and savings recomputed
from the regional minor-unit values and is kept iff the regional
discount_percent is at least 5. -/
theorem fetchSteamSaleGames_enrichment_fallback (saleGames : List MappedGame)
    (pageNum : Nat) (priceLookup : MappedGame → Option SteamPriceVN)
    (g : MappedGame) (hg : g ∈ (saleGames.drop (pageNum * 10)).take 10) :
    (priceLookup g = none →
      (enrichGame g none).normalPrice = g.normalPrice ∧
      (enrichGame g none).salePrice = g.price ∧
      (enrichGame g none).savings = g.savings ∧
      (enrichGame g none).steamPriceVN = none ∧
      (enrichGame g none ∈ fetchSteamSaleGames saleGames pageNum priceLookup ↔
        5 ≤ g.savings)) ∧
    (∀ p, priceLookup g = some p →
      (enrichGame g (some p)).salePrice = p.final / 100 ∧
      (enrichGame g (some p)).normalPrice = p.initial / 100 ∧
      (enrichGame g (some p)).savings = p.discount_percent ∧
      (enrichGame g (some p)).steamPriceVN = some p ∧
      (enrichGame g (some p) ∈ fetchSteamSaleGames saleGames pageNum priceLookup ↔
        5 ≤ p.discount_percent)) := by
  have hemp : ((saleGames.drop (pageNum * 10)).take 10).isEmpty = false := by
    cases hl : (saleGames.drop (pageNum * 10)).take 10 with
    | nil => exact absurd hl (List.ne_nil_of_mem hg)
    | cons a l => rfl
  constructor
  · intro hnone
    refine ⟨rfl, rfl, rfl, rfl, ?_⟩
    simp only [fetchSteamSaleGames, hemp, Bool.false_eq_true, if_false,
      List.mem_filter]
    constructor
    · rintro ⟨-, hsale⟩
      simpa [gameOnSale, enrichGame] using hsale
    · intro hsav
      refine ⟨?_, by simp [gameOnSale, enrichGame, hsav]⟩
      have hm := List.mem_map_of_mem
        (fun g' => enrichGame g' (priceLookup g')) hg
      simpa [hnone] using hm
  · intro p hp
    refine ⟨rfl, rfl, rfl, rfl, ?_⟩
    simp only [fetchSteamSaleGames, hemp, Bool.false_eq_true, if_false,
      List.mem_filter]
    constructor
    · rintro ⟨-, hsale⟩
      simpa [gameOnSale, enrichGame] using hsale
    · intro hsav
      refine ⟨?_, by simp [gameOnSale, enrichGame, hsav]⟩
      have hm := List.mem_map_of_mem
        (fun g' => enrichGame g' (priceLookup g')) hg
      simpa [hp] using hm

/-- A concrete aggregator candidate used by the C5 witness. -/
def c5SampleGame : MappedGame :=
  { id := some "10", title := "Counter-Strike", dealID := some "deal10",
    price := 9, normalPrice := 19, savings := 52, thumb := "t",
    isDLC := false, isBundle := false, type := "Game" }

/-- C5 witness: the theorem applied to a one-candidate pool whose price
lookup fails; the candidate (aggregator savings 52) stays in the result
with its aggregator fields. -/
theorem fetchSteamSaleGames_enrichment_fallback_witness :
    c5SampleGame ∈ (([c5SampleGame].drop (0 * 10)).take 10) ∧
    (((fun _ : MappedGame => (none : Option SteamPriceVN)) c5SampleGame = none →
      (enrichGame c5SampleGame none).normalPrice = c5SampleGame.normalPrice ∧
      (enrichGame c5SampleGame none).salePrice = c5SampleGame.price ∧
      (enrichGame c5SampleGame none).savings = c5SampleGame.savings ∧
      (enrichGame c5SampleGame none).steamPriceVN = none ∧
      (enrichGame c5SampleGame none ∈
          fetchSteamSaleGames [c5SampleGame] 0 (fun _ => none) ↔
        5 ≤ c5SampleGame.savings)) ∧
    (∀ p, (fun _ : MappedGame => (none : Option SteamPriceVN)) c5SampleGame = some p →
      (enrichGame c5SampleGame (some p)).salePrice = p.final / 100 ∧
      (enrichGame c5SampleGame (some p)).normalPrice = p.initial / 100 ∧
      (enrichGame c5SampleGame (some p)).savings = p.discount_percent ∧
      (enrichGame c5SampleGame (some p)).steamPriceVN = some p ∧
      (enrichGame c5SampleGame (some p) ∈
          fetchSteamSaleGames [c5SampleGame] 0 (fun _ => none) ↔
        5 ≤ p.discount_percent))) :=
  ⟨by decide,
   fetchSteamSaleGames_enrichment_fallback [c5SampleGame] 0 (fun _ => none)
     c5SampleGame (by decide)⟩

/-! ## Claim C6 -/

/-- C6: the price buckets of `applyFilterToDeals` are half-open and
non-overlapping on the regional final minor-unit price (0 when no regional
price block is present): `under100k` keeps an item iff that price is below
10,000,000; `100k-500k` iff it is in [10,000,000, 50,000,000); `500k-1m`
iff it is in [50,000,000, 100,000,000); an item priced exactly 10,000,000
is kept by `100k-500k` and not by `under100k`; and an item with no
regional price block is kept by `under100k` and the `all` sentinel only. -/
theorem applyFilterToDeals_price_buckets (deals : List GameDeal)
    (deal : GameDeal) (hd : deal ∈ deals) :
    (deal ∈ applyFilterToDeals deals "under100k" "all" ↔
      regionalFinalOrZero deal < 10000000) ∧
    (deal ∈ applyFilterToDeals deals "100k-500k" "all" ↔
      10000000 ≤ regionalFinalOrZero deal ∧
      regionalFinalOrZero deal < 50000000) ∧
    (deal ∈ applyFilterToDeals deals "500k-1m" "all" ↔
      50000000 ≤ regionalFinalOrZero deal ∧
      regionalFinalOrZero deal < 100000000) ∧
    (regionalFinalOrZero deal = 10000000 →
      deal ∈ applyFilterToDeals deals "100k-500k" "all" ∧
      deal ∉ applyFilterToDeals deals "under100k" "all") ∧
    (deal.steamPriceVN = none →
      deal ∈ applyFilterToDeals deals "under100k" "all" ∧
      deal ∉ applyFilterToDeals deals "100k-500k" "all" ∧
      deal ∉ applyFilterToDeals deals "500k-1m" "all" ∧
      deal ∈ applyFilterToDeals deals "all" "all") := by
  have h1 : applyFilterToDeals deals "under100k" "all" =
      deals.filter (priceBucketKeep "under100k") := rfl
  have h2 : applyFilterToDeals deals "100k-500k" "all" =
      deals.filter (priceBucketKeep "100k-500k") := rfl
  have h3 : applyFilterToDeals deals "500k-1m" "all" =
      deals.filter (priceBucketKeep "500k-1m") := rfl
  have h4 : applyFilterToDeals deals "all" "all" = deals := rfl
  have hk1 : ∀ d : GameDeal, priceBucketKeep "under100k" d =
      decide (regionalFinalOrZero d < 10000000) := fun _ => rfl
  have hk2 : ∀ d : GameDeal, priceBucketKeep "100k-500k" d =
      (decide ((10000000 : ℚ) ≤ regionalFinalOrZero d) &&
       decide (regionalFinalOrZero d < 50000000)) := fun _ => rfl
  have hk3 : ∀ d : GameDeal, priceBucketKeep "500k-1m" d =
      (decide ((50000000 : ℚ) ≤ regionalFinalOrZero d) &&
       decide (regionalFinalOrZero d < 100000000)) := fun _ => rfl
  refine ⟨?_, ?_, ?_, ?_, ?_⟩
  · rw [h1]; simp [List.mem_filter, hd, hk1]
  · rw [h2]; simp [List.mem_filter, hd, hk2]
  · rw [h3]; simp [List.mem_filter, hd, hk3]
  · intro h10
    constructor
    · rw [h2]
      refine List.mem_filter.mpr ⟨hd, ?_⟩
      rw [hk2, h10]
      norm_num
    · rw [h1]
      intro hmem
      have := (List.mem_filter.mp hmem).2
      rw [hk1, h10] at this
      norm_num at this
  · intro hnone
    have hz : regionalFinalOrZero deal = 0 := by
      simp [regionalFinalOrZero, hnone]
    refine ⟨?_, ?_, ?_, ?_⟩
    · rw [h1]
      refine List.mem_filter.mpr ⟨hd, ?_⟩
      rw [hk1, hz]
      norm_num
    · rw [h2]
      intro hmem
      have := (List.mem_filter.mp hmem).2
      rw [hk2, hz] at this
      norm_num at this
    · rw [h3]
      intro hmem
      have := (List.mem_filter.mp hmem).2
      rw [hk3, hz] at this
      norm_num at this
    · rw [h4]; exact hd

/-- A concrete deal with no regional price block, for the C6 witness. -/
def c6SampleDeal : GameDeal :=
  { dealID := "steam_10", title := "Counter-Strike", normalPrice := 19,
    salePrice := 9, savings := 52, thumb := "t", storeID := "1",
    dealRating := "0", gameID := some "10", steamAppID := some "10",
    isDLC := false, isBundle := false, type := "Game",
    steamPriceVN := none, genres := none }

/-- C6 witness: the theorem applied to a one-deal list whose deal carries
no regional price block. -/
theorem applyFilterToDeals_price_buckets_witness :
    c6SampleDeal ∈ [c6SampleDeal] ∧
    ((c6SampleDeal ∈ applyFilterToDeals [c6SampleDeal] "under100k" "all" ↔
       regionalFinalOrZero c6SampleDeal < 10000000) ∧
     (c6SampleDeal ∈ applyFilterToDeals [c6SampleDeal] "100k-500k" "all" ↔
       10000000 ≤ regionalFinalOrZero c6SampleDeal ∧
       regionalFinalOrZero c6SampleDeal < 50000000) ∧
     (c6SampleDeal ∈ applyFilterToDeals [c6SampleDeal] "500k-1m" "all" ↔
       50000000 ≤ regionalFinalOrZero c6SampleDeal ∧
       regionalFinalOrZero c6SampleDeal < 100000000) ∧
     (regionalFinalOrZero c6SampleDeal = 10000000 →
       c6SampleDeal ∈ applyFilterToDeals [c6SampleDeal] "100k-500k" "all" ∧
       c6SampleDeal ∉ applyFilterToDeals [c6SampleDeal] "under100k" "all") ∧
     (c6SampleDeal.steamPriceVN = none →
       c6SampleDeal ∈ applyFilterToDeals [c6SampleDeal] "under100k" "all" ∧
       c6SampleDeal ∉ applyFilterToDeals [c6SampleDeal] "100k-500k" "all" ∧
       c6SampleDeal ∉ applyFilterToDeals [c6SampleDeal] "500k-1m" "all" ∧
       c6SampleDeal ∈ applyFilterToDeals [c6SampleDeal] "all" "all")) :=
  ⟨List.mem_singleton.mpr rfl,
   applyFilterToDeals_price_buckets [c6SampleDeal] c6SampleDeal
     (List.mem_singleton.mpr rfl)⟩

/-! ## Helper lemmas about indexed filtering -/

/-- Unfolding `List.enum` to `List.enumFrom`. -/
theorem enum_eq_enumFrom {α : Type} (l : List α) :
    l.enum = List.enumFrom 0 l := rfl

/-- Members of `enumFrom` are index-element pairs of the underlying list. -/
theorem snd_mem_of_mem_enumFrom {α : Type} {q : Nat × α} {n : Nat}
    {l : List α} (hq : q ∈ List.enumFrom n l) : q.2 ∈ l := by
  obtain ⟨i, x⟩ := q
  exact (List.mem_enumFrom hq).2.2 ▸ List.getElem_mem _

/-- Filtering an enumeration with a predicate that holds exactly at one
index `i0` yields the singleton pair at that index. -/
theorem enumFrom_filter_single {α : Type} (Q : Nat × α → Bool) :
    ∀ (B : List α) (n i0 : Nat), n ≤ i0 → ∀ hlt : i0 - n < B.length,
      (∀ q ∈ List.enumFrom n B, (Q q = true ↔ q.1 = i0)) →
      (List.enumFrom n B).filter Q = [(i0, B.get ⟨i0 - n, hlt⟩)] := by
  intro B
  induction B with
  | nil => intro n i0 _ hlt _; simp at hlt
  | cons x xs ih =>
      intro n i0 hn hlt hQ
      have hcons : List.enumFrom n (x :: xs) =
          (n, x) :: List.enumFrom (n + 1) xs := rfl
      by_cases heq : n = i0
      · subst heq
        have hhead : Q (n, x) = true :=
          (hQ (n, x) (by simp [hcons])).mpr rfl
        have htail : (List.enumFrom (n + 1) xs).filter Q = [] := by
          rw [List.filter_eq_nil_iff]
          intro q hq hQq
          have h1 := (hQ q (by simp [hcons, hq])).mp hQq
          have h2 := (List.mem_enumFrom hq).1
          omega
        rw [hcons, List.filter_cons, if_pos hhead, htail]
        simp
      · have hn1 : n + 1 ≤ i0 := by omega
        have hhead : Q (n, x) = false := by
          have := hQ (n, x) (by simp [hcons])
          rw [Bool.eq_false_iff]
          intro hc
          exact heq (this.mp hc)
        have hlt' : i0 - (n + 1) < xs.length := by
          simp only [List.length_cons] at hlt
          omega
        have hrec := ih (n + 1) i0 hn1 hlt'
          (fun q hq => hQ q (by simp [hcons, hq]))
        rw [hcons, List.filter_cons, if_neg (by simp [hhead]), hrec]
        have hidx : i0 - n = (i0 - (n + 1)) + 1 := by omega
        simp only [List.get_eq_getElem, hidx, List.getElem_cons_succ]

/-- `find?` returns the element at `findIdx` when a match exists. -/
theorem find?_eq_get_findIdx {α : Type} (p : α → Bool) (l : List α)
    (h : l.findIdx p < l.length) :
    l.find? p = some (l.get ⟨l.findIdx p, h⟩) := by
  induction l with
  | nil => simp at h
  | cons a l ih =>
      by_cases hp : p a
      · have h0 : (a :: l).findIdx p = 0 := by
          simp [List.findIdx_cons, hp]
        rw [List.find?_cons]
        simp only [hp]
        simp [h0]
      · have hs : (a :: l).findIdx p = l.findIdx p + 1 := by
          simp [List.findIdx_cons, hp]
        have h' : l.findIdx p < l.length := by
          rw [hs] at h
          simpa using h
        rw [List.find?_cons]
        simp only [hp]
        rw [ih h']
        simp only [List.get_eq_getElem, hs, List.getElem_cons_succ]

/-! ## Claim C9 -/

/-- C9: for every truthy external identifier `v`, the deduplicated list
returned by `fetchAllSteamSaleGames` contains, among the mapped rows whose
identifier (`steamAppID || gameID`) equals `v`, exactly the
first-encountered one — its full record — and drops all later duplicates:
filtering the result by the identifier equals `find?` over the pre-dedup
list. -/
theorem fetchAllSteamSaleGames_dedup_first (allDeals : List AggRow)
    (v : Option String) (htr : strTruthy v = true) :
    (fetchAllSteamSaleGames allDeals).filter (fun g => g.id == v) =
      ((allGamesOf allDeals).find? (fun g => g.id == v)).toList := by
  have hsav : ∀ g ∈ allGamesOf allDeals,
      decide ((5 : ℚ) ≤ g.savings) = true := by
    intro g hgm
    obtain ⟨d, hdm, rfl⟩ := List.mem_map.mp hgm
    have hfd := (List.mem_filter.mp hdm).2
    simpa [mapDeal] using hfd
  set A := allGamesOf allDeals with hA
  set P : MappedGame → Bool := fun g => g.id == v with hP
  set K : Nat × MappedGame → Bool := fun q => P q.2 &&
    (strTruthy q.2.id && decide ((5 : ℚ) ≤ q.2.savings) &&
      (q.1 == A.findIdx fun g => g.id == q.2.id)) with hK
  have hshape : (fetchAllSteamSaleGames allDeals).filter P =
      (A.enum.filter K).map Prod.snd := by
    rw [fetchAllSteamSaleGames, uniqueGamesOf, List.filter_map,
      List.filter_filter]
    rfl
  rw [hshape]
  by_cases hex : ∃ g ∈ A, P g = true
  · have hlt : A.findIdx P < A.length := List.findIdx_lt_length_of_exists hex
    set i0 := A.findIdx P with hi0
    have hPi0 : P (A.get ⟨i0, hlt⟩) = true := by
      simpa [List.get_eq_getElem] using @List.findIdx_getElem _ P A hlt
    have hiq : ∀ q ∈ List.enumFrom 0 A, (K q = true ↔ q.1 = i0) := by
      intro q hq
      obtain ⟨i, g⟩ := q
      have hmem := List.mem_enumFrom hq
      have hilt : i < A.length := by
        have := hmem.2.1
        omega
      have hgA : g = A.get ⟨i, hilt⟩ := by
        have := hmem.2.2
        simpa [List.get_eq_getElem] using this
      constructor
      · intro hKq
        simp only [hK, Bool.and_eq_true] at hKq
        obtain ⟨hPg, ⟨hX, hY⟩, hZ⟩ := hKq
        have hgid : g.id = v := by simpa [hP] using hPg
        have hiz : i = A.findIdx fun g2 => g2.id == g.id := by
          simpa using hZ
        rw [hgid] at hiz
        simpa [hi0, hP] using hiz
      · intro hqi
        have hi : i = i0 := hqi
        subst hi
        have hg : g = A.get ⟨i0, hlt⟩ := by
          rw [hgA]
        have hPg : P g = true := by rw [hg]; exact hPi0
        have hgid : g.id = v := by simpa [hP] using hPg
        have hgm : g ∈ A := by
          rw [hg]
          exact List.get_mem A i0 hlt
        simp only [hK, Bool.and_eq_true]
        refine ⟨hPg, ⟨?_, hsav g hgm⟩, ?_⟩
        · rw [hgid]; exact htr
        · rw [hgid]
          simp [hi0, hP]
    have hfs := enumFrom_filter_single K A 0 i0 (Nat.zero_le _)
      (by simpa using hlt) hiq
    rw [enum_eq_enumFrom, hfs, find?_eq_get_findIdx P A hlt]
    simp
  · have hf : A.find? P = none :=
      List.find?_eq_none.mpr fun x hx hpx => hex ⟨x, hx, hpx⟩
    have hnil : (List.enumFrom 0 A).filter K = [] := by
      rw [List.filter_eq_nil_iff]
      intro q hq hKq
      have hPg : P q.2 = true := by
        simp only [hK, Bool.and_eq_true] at hKq
        exact hKq.1
      exact hex ⟨q.2, snd_mem_of_mem_enumFrom hq, hPg⟩
    rw [enum_eq_enumFrom, hf, hnil]
    simp

/-- First concrete aggregator row for the C9 witness (identifier 10). -/
def c9RowA : AggRow :=
  { dealID := some "dA", title := "Alpha", normalPrice := 20,
    salePrice := 10, savings := 50, thumb := "tA",
    steamAppID := some "10", gameID := some "100" }

/-- Second concrete aggregator row for the C9 witness: same external
identifier 10, different fields. -/
def c9RowB : AggRow :=
  { dealID := some "dB", title := "Beta", normalPrice := 40,
    salePrice := 30, savings := 25, thumb := "tB",
    steamAppID := some "10", gameID := none }

/-- C9 witness: the theorem applied to two rows sharing identifier 10. -/
theorem fetchAllSteamSaleGames_dedup_first_witness :
    strTruthy (some "10") = true ∧
    (fetchAllSteamSaleGames [c9RowA, c9RowB]).filter
        (fun g => g.id == some "10") =
      ((allGamesOf [c9RowA, c9RowB]).find?
        (fun g => g.id == some "10")).toList :=
  ⟨by decide,
   fetchAllSteamSaleGames_dedup_first [c9RowA, c9RowB] (some "10")
     (by decide)⟩

/-! ## Claim C10 -/

/-- C10: every entry of the deduplicated list returned by
`fetchAllSteamSaleGames` carries a truthy external identifier, and a row
whose `steamAppID` and `gameID` are both absent or empty never survives to
the returned list, regardless of its discount. -/
theorem fetchAllSteamSaleGames_ids_truthy (allDeals : List AggRow) :
    (∀ g ∈ fetchAllSteamSaleGames allDeals, strTruthy g.id = true) ∧
    (∀ d ∈ allDeals, strTruthy d.steamAppID = false →
      strTruthy d.gameID = false →
      mapDeal d ∉ fetchAllSteamSaleGames allDeals) := by
  have key : ∀ g ∈ fetchAllSteamSaleGames allDeals,
      strTruthy g.id = true := by
    intro g hg
    rw [fetchAllSteamSaleGames, uniqueGamesOf] at hg
    obtain ⟨q, hq, rfl⟩ := List.mem_map.mp hg
    have hpred := (List.mem_filter.mp hq).2
    simp only [Bool.and_eq_true] at hpred
    exact hpred.1.1
  refine ⟨key, ?_⟩
  intro d _ h1 h2 hmem
  have htr := key _ hmem
  rw [mapDeal] at htr
  simp only [jsOr, h1, Bool.false_eq_true, if_false] at htr
  rw [h2] at htr
  exact Bool.false_ne_true htr

/-- A row with no external identifier at all, for the C10 witness. -/
def c10RowNoId : AggRow :=
  { dealID := some "dX", title := "Gamma", normalPrice := 50,
    salePrice := 5, savings := 90, thumb := "tX",
    steamAppID := none, gameID := some "" }

/-- C10 witness: the theorem applied to a list containing a row with no
identifier (savings 90) and the identified row of the C9 witness; the
identifier-less row is not in the returned list. -/
theorem fetchAllSteamSaleGames_ids_truthy_witness :
    c10RowNoId ∈ [c10RowNoId, c9RowA] ∧
    strTruthy c10RowNoId.steamAppID = false ∧
    strTruthy c10RowNoId.gameID = false ∧
    mapDeal c10RowNoId ∉ fetchAllSteamSaleGames [c10RowNoId, c9RowA] :=
  ⟨by decide, by decide, by decide,
   (fetchAllSteamSaleGames_ids_truthy [c10RowNoId, c9RowA]).2 c10RowNoId
     (by decide) (by decide) (by decide)⟩

/-! ## Helper lemmas about the executor -/

/-- Removing the element at an index and re-consing it permutes the list. -/
theorem get_cons_eraseIdx_perm {α : Type} :
    ∀ (l : List α) (j : Nat) (h : j < l.length),
      (l.get ⟨j, h⟩ :: l.eraseIdx j).Perm l := by
  intro l
  induction l with
  | nil => intro j h; simp at h
  | cons a l ih =>
      intro j h
      cases j with
      | zero => simp
      | succ j =>
          have h' : j < l.length := by simpa using h
          have hswap : (l.get ⟨j, h'⟩ :: a :: l.eraseIdx j).Perm
              (a :: l.get ⟨j, h'⟩ :: l.eraseIdx j) :=
            List.Perm.swap a (l.get ⟨j, h'⟩) (l.eraseIdx j)
          have hgoal := hswap.trans ((ih j h').cons a)
          simpa [List.get_eq_getElem, List.eraseIdx_cons_succ] using hgoal

/-- The adversarially completed task together with the remaining in-flight
tasks is a permutation of the in-flight list. -/
theorem pickCompleted_perm {β : Type} (sched : Nat → Nat) (step : Nat)
    (inFlight : List (ExecTask β)) (h : inFlight ≠ []) :
    ((pickCompleted sched step inFlight h).1 ::
      (pickCompleted sched step inFlight h).2).Perm inFlight :=
  get_cons_eraseIdx_perm inFlight (sched step % inFlight.length)
    (Nat.mod_lt _ (List.length_pos.mpr h))

/-- Draining the in-flight tasks appends exactly those tasks, in some
order, to the completed list. -/
theorem drainAll_perm {β : Type} (sched : Nat → Nat) :
    ∀ (fuel step : Nat) (inFlight completed : List (ExecTask β)),
      (drainAll sched fuel step inFlight completed).Perm
        (completed ++ inFlight) := by
  intro fuel
  induction fuel with
  | zero => intro step inFlight completed; simp [drainAll]
  | succ fuel ih =>
      intro step inFlight completed
      cases inFlight with
      | nil => simp [drainAll]
      | cons x rest =>
          rw [drainAll]
          refine (ih (step + 1) _ _).trans ?_
          have hpick := pickCompleted_perm sched step (x :: rest)
            (List.cons_ne_nil x rest)
          refine List.Perm.trans ?_
            (List.Perm.append_left completed hpick)
          simp

/-- The executor's output is a permutation of all started tasks: every
task completes exactly once, regardless of the completion schedule and
the concurrency bound. -/
theorem execLoop_perm {β : Type} (sched : Nat → Nat) (maxConcurrent : Nat) :
    ∀ (pending : List (ExecTask β)) (step : Nat)
      (inFlight completed : List (ExecTask β)),
      (execLoop sched maxConcurrent pending step inFlight completed).Perm
        (completed ++ inFlight ++ pending) := by
  intro pending
  induction pending with
  | nil =>
      intro step inFlight completed
      rw [execLoop]
      simpa using drainAll_perm sched inFlight.length step inFlight completed
  | cons t pending ih =>
      intro step inFlight completed
      rw [execLoop]
      by_cases hc : maxConcurrent ≤ (inFlight ++ [t]).length
      · simp only [hc, if_true]
        refine (ih _ _ _).trans ?_
        have hpick := pickCompleted_perm sched step (inFlight ++ [t])
          (by simp)
        have h1 : ((completed ++ [(pickCompleted sched step (inFlight ++ [t])
            (by simp)).1]) ++ (pickCompleted sched step (inFlight ++ [t])
            (by simp)).2).Perm (completed ++ (inFlight ++ [t])) := by
          refine List.Perm.trans ?_
            (List.Perm.append_left completed hpick)
          simp
        refine (List.Perm.append_right pending h1).trans ?_
        simp [List.append_assoc]
      · simp only [hc, if_false]
        refine (ih _ _ _).trans ?_
        simp [List.append_assoc]

/-- Every position of a list appears, with its element, in `enumFrom`. -/
theorem mem_enumFrom_get {α : Type} :
    ∀ (l : List α) (n i : Nat) (h : i < l.length),
      (n + i, l.get ⟨i, h⟩) ∈ List.enumFrom n l := by
  intro l
  induction l with
  | nil => intro n i h; simp at h
  | cons a l ih =>
      intro n i h
      cases i with
      | zero => simp [List.enumFrom]
      | succ i =>
          have h' : i < l.length := by simpa using h
          have hmem := ih (n + 1) i h'
          have harith : n + (i + 1) = (n + 1) + i := by omega
          refine List.mem_cons_of_mem _ ?_
          rw [harith]
          simpa [List.get_eq_getElem] using hmem

/-- A wrapped task writes `null` exactly when its operation threw. -/
theorem taskOutcome_eq_none_iff {α β ε : Type} (fetchFn : α → Except ε β)
    (a : α) :
    taskOutcome fetchFn a = none ↔ ∃ e, fetchFn a = .error e := by
  unfold taskOutcome
  cases h : fetchFn a with
  | ok b => simp [Except.toOption]
  | error e => simp [Except.toOption]

/-! ## Claim C2 -/

/-- C2: for every item list, per-item operation, concurrency bound and
completion schedule, `parallelFetchWithLimit` returns a list of length N
whose i-th element is the operation's outcome for the i-th input item —
independent of the adversarial completion order — and that element is
`null` exactly when the operation for the i-th item threw; in particular
one item's failure leaves every other item's result in place. -/
theorem parallelFetchWithLimit_aligned {α β ε : Type} (items : List α)
    (fetchFn : α → Except ε β) (maxConcurrent : Nat) (sched : Nat → Nat) :
    parallelFetchWithLimit items fetchFn maxConcurrent sched =
      items.map (taskOutcome fetchFn) ∧
    (parallelFetchWithLimit items fetchFn maxConcurrent sched).length =
      items.length ∧
    ∀ i : Fin items.length,
      ∀ hi2 : i.val <
        (parallelFetchWithLimit items fetchFn maxConcurrent sched).length,
      (parallelFetchWithLimit items fetchFn maxConcurrent sched).get
          ⟨i.val, hi2⟩ = taskOutcome fetchFn (items.get i) ∧
      ((parallelFetchWithLimit items fetchFn maxConcurrent sched).get
          ⟨i.val, hi2⟩ = none ↔ ∃ e, fetchFn (items.get i) = .error e) := by
  have hEq : parallelFetchWithLimit items fetchFn maxConcurrent sched =
      items.map (taskOutcome fetchFn) := by
    set L := items.map (taskOutcome fetchFn) with hL
    have hperm : (execLoop sched maxConcurrent L.enum 0 [] []).Perm L.enum := by
      simpa using execLoop_perm sched maxConcurrent L.enum 0 [] []
    have hfind : ∀ i, ∀ hi : i < L.length,
        (execLoop sched maxConcurrent L.enum 0 [] []).find?
            (fun p => p.1 == i) = some (i, L.get ⟨i, hi⟩) := by
      intro i hi
      have hmemE : (i, L.get ⟨i, hi⟩) ∈ L.enum := by
        have := mem_enumFrom_get L 0 i hi
        simpa [enum_eq_enumFrom] using this
      have hmem : (i, L.get ⟨i, hi⟩) ∈
          execLoop sched maxConcurrent L.enum 0 [] [] :=
        hperm.mem_iff.mpr hmemE
      cases hfq : (execLoop sched maxConcurrent L.enum 0 [] []).find?
          (fun p => p.1 == i) with
      | none =>
          exfalso
          have := List.find?_eq_none.mp hfq _ hmem
          simp at this
      | some q =>
          obtain ⟨a, b⟩ := q
          have ha : a = i := by simpa using List.find?_some hfq
          subst ha
          have hqenum : (a, b) ∈ List.enumFrom 0 L := by
            have := hperm.mem_iff.mp (List.mem_of_find?_eq_some hfq)
            simpa [enum_eq_enumFrom] using this
          have hb := (List.mem_enumFrom hqenum).2.2
          simp only [Nat.sub_zero] at hb
          rw [hb]
          simp [List.get_eq_getElem]
    rw [parallelFetchWithLimit, ← hL]
    apply List.ext_getElem
    · simp [hL]
    · intro n h1 h2
      have hn : n < L.length := by simpa using h2
      simp only [List.getElem_map, List.getElem_range]
      rw [hfind n hn]
      simp [List.get_eq_getElem]
  refine ⟨hEq, by rw [hEq]; simp, ?_⟩
  intro i hi2
  constructor
  · simp only [List.get_eq_getElem, hEq, List.getElem_map]
  · simp only [List.get_eq_getElem, hEq, List.getElem_map]
    exact taskOutcome_eq_none_iff fetchFn (items.get i)

/-- C2 witness: the theorem applied to the specification's scenario — ten
items, concurrency cap 3, the fifth operation throwing — under the
identity schedule: the output stays aligned with the input and only the
failing item yields `null`. -/
theorem parallelFetchWithLimit_aligned_witness :
    parallelFetchWithLimit [0, 1, 2, 3, 4, 5, 6, 7, 8, 9]
      (fun n => if n = 4 then Except.error "network" else Except.ok (n * n))
      3 (fun k => k) =
      [some 0, some 1, some 4, some 9, none, some 25, some 36, some 49,
       some 64, some 81] := by
  rw [(parallelFetchWithLimit_aligned [0, 1, 2, 3, 4, 5, 6, 7, 8, 9]
    (fun n => if n = 4 then Except.error "network" else Except.ok (n * n))
    3 (fun k => k)).1]
  decide
